import Mathlib

/-!
Verification development for `download_sra.py` (repository `sra_dowloader`).

The Python script has three core functions, translated below as pure Lean
functions over explicit data:

* `sbatch(cmd, J, log, mem)` — submits one shell command to a batch queue;
  modelled as returning a `Submission` record (the external `subprocess.call`
  is out of scope; the record captures exactly the arguments the script
  passes to it), or an error when the command string is empty.
* `do_download_sra(to_dw)` — builds one shell command per mapping value and
  submits each one.
* `do_rename_sra(to_dw)` — renames `fastq/<run_id>_1.fastq.gz` to
  `fastq/<name>.fastq.gz` for each entry, stopping the whole process at the
  first missing source file.  The filesystem is modelled as the list of
  existing paths; `os.rename` moves a path when the source exists.
* `parse_input_file(inp_f, verbose)` — reads an INI file through
  `configparser` and produces the settings dictionary.  The post-parse state
  of `configparser` is modelled as `ConfigData` (sections in file order, each
  a list of key/value pairs with keys already lower-cased and values
  stripped, as `configparser` stores them); the read step itself, which
  lower-cases option keys and rejects in-file duplicates, is modelled
  separately by `configRead`.

Python string primitives used by the script (`str.split(",")`, `int(...)`,
`str.lower()`) are re-implemented structurally over `List Char` so that they
compute by kernel reduction; their semantics follows CPython (`"".split(",")`
is `[""]`, `int` accepts surrounding whitespace and one optional sign,
`int` raises `ValueError` on anything else).  Digit-group underscores of
Python `int` are not modelled; no claim involves them.
-/

namespace DownloadSra

/-- One section of a parsed configuration: option key/value pairs in
insertion order.  Keys are unique (a `configparser` section is a dict) and
already passed through `optionxform` (lower-casing). -/
abbrev Sect := List (String × String)

/-- Post-parse `configparser` state: sections in insertion order. -/
abbrev ConfigData := List (String × Sect)

/-- Section lookup of `ConfigParser` (section names are case sensitive). -/
def cpGetSection (c : ConfigData) (s : String) : Option Sect :=
  (c.find? (fun q => q.1 == s)).map (fun q => q.2)

/-- Predicate `ConfigParser.has_section`. -/
def cpHasSection (c : ConfigData) (s : String) : Bool :=
  (cpGetSection c s).isSome

/-- Lookup `ConfigParser.get` as an option: `some` exactly when
`ConfigParser.has_option` holds, carrying the stored value. -/
def cpGet (c : ConfigData) (s k : String) : Option String :=
  (cpGetSection c s).bind (fun d => (d.find? (fun p => p.1 == k)).map (fun p => p.2))

/-- Items list `ConfigParser.items(section)`; the script only calls it on sections it
has checked to exist, and an absent section is treated as empty here. -/
def cpItems (c : ConfigData) (s : String) : Sect :=
  (cpGetSection c s).getD []

/-- Source constant `MAX_DW_SIZE`. -/
def MAX_DW_SIZE : String := "60Gb"

/-- Source constant `PREFIX` (renamed `PREF` here). -/
def PREF : String := "SRR"

/-- Source constant `PREFETCH`. -/
def PREFETCH : String := "~/programs/sratoolkit.2.8.1-3-centos_linux64/bin/prefetch"

/-- Source constant `FQDUMP`. -/
def FQDUMP : String := "~/programs/sratoolkit.2.8.1-3-centos_linux64/bin/fastq-dump"

/-! ### Python string primitives -/

/-- Auxiliary for `pySplit`: `cur` is the reversed current chunk. -/
def splitCommaAux : List Char → List Char → List String
  | [], cur => [cur.reverse.asString]
  | c :: t, cur =>
    if c = ',' then cur.reverse.asString :: splitCommaAux t []
    else splitCommaAux t (c :: cur)

/-- Python `s.split(",")`: `"".split(",") = [""]`, empty chunks kept. -/
def pySplit (s : String) : List String :=
  splitCommaAux s.data []

/-- Whitespace characters stripped by Python `int`. -/
def isPySpace (c : Char) : Bool :=
  c = ' ' || c = '\t' || c = '\n' || c = '\r'

/-- Strip leading and trailing whitespace. -/
def pyStrip (l : List Char) : List Char :=
  ((l.dropWhile isPySpace).reverse.dropWhile isPySpace).reverse

/-- Decimal digit accumulator; `none` on the first non-digit character. -/
def digitsToNatAux : List Char → Nat → Option Nat
  | [], acc => some acc
  | c :: t, acc =>
    if 48 ≤ c.toNat ∧ c.toNat ≤ 57 then digitsToNatAux t (acc * 10 + (c.toNat - 48))
    else none

/-- All-digit string to `Nat`; empty input is rejected. -/
def digitsToNat : List Char → Option Nat
  | [] => none
  | l => digitsToNatAux l 0

/-- Sign handling of Python `int` on an already-stripped character list. -/
def pyIntChars : List Char → Option Int
  | '-' :: t => (digitsToNat t).map (fun n => -(n : Int))
  | '+' :: t => (digitsToNat t).map (fun n => (n : Int))
  | l => (digitsToNat l).map (fun n => (n : Int))

/-- Python `int(s)` for a decimal string: `none` models a `ValueError`. -/
def pyInt (s : String) : Option Int :=
  pyIntChars (pyStrip s.data)

/-! ### Python dict built by assignment -/

/-- Python `d[k] = v` on a dict modelled as an ordered association list:
overwrite in place when the key exists, append otherwise. -/
def dictInsert (d : List (String × String)) (k v : String) : List (String × String) :=
  if d.any (fun p => p.1 == k) then d.map (fun p => if p.1 == k then (k, v) else p)
  else d ++ [(k, v)]

/-- Successive dict assignments. -/
def insertAll (d : List (String × String)) (ps : List (String × String)) :
    List (String × String) :=
  ps.foldl (fun acc p => dictInsert acc p.1 p.2) d

/-! ### sbatch and the download mode -/

/-- The arguments `sbatch(cmd, J, log, mem)` passes to the external queue
(the composed `sbatch_cmd` shell line is determined by these four values). -/
structure Submission where
  cmd : String
  J : String
  log : String
  mem : Nat
deriving DecidableEq, Repr

/-- Source `sbatch`: rejects an empty command (`print` + `sys.exit`),
otherwise submits.  The Python defaults are `J="fortytwo"`,
`log="fortywo.log"`, `mem=65536`; the script's only call site passes `J` and
`log` explicitly and leaves `mem` at its default. -/
def sbatch (cmd J log : String) (mem : Nat) : Except String Submission :=
  if cmd.length = 0 then .error "Error, command can not be empy"
  else .ok ⟨cmd, J, log, mem⟩

/-- The settings dictionary `my_config` returned by `parse_input_file` and
consumed (as `to_dw`) by both modes.  `sra_dict = none` models a dict that
lacks the `"sra_dict"` key, which `do_download_sra` tests with
`"sra_dict" in to_dw`. -/
structure ToDw where
  prefetch_exe : String
  fqdump_exe : String
  max_dw_size : String
  sra_dict : Option (List (String × String))
deriving DecidableEq, Repr

/-- The shell command composed for one run id in `do_download_sra`,
translating the two `" ".join(...)` calls and the two string appends. -/
def download_cmd (my_prefetch my_fqdump max_dw_size run_id : String) : String :=
  (my_prefetch ++ " " ++ "-v" ++ " " ++ run_id ++ " " ++ ("-X " ++ max_dw_size ++ " && "))
    ++ (my_fqdump ++ " " ++ "--outdir fastq --gzip --split-files")
    ++ (" ~/ncbi/public/sra/" ++ run_id ++ ".sra && ")
    ++ ("rm -fr  ~/ncbi/public/sra/" ++ run_id ++ ".sra ")

/-- Source `do_download_sra`: one `sbatch` call per mapping value (the key is
ignored), in mapping order; when the `"sra_dict"` key is absent the script
logs `"Could not find SRR ids to submit."` and exits.  An error from `sbatch`
(`sys.exit`) aborts the remaining submissions, which `mapM` mirrors. -/
def do_download_sra (to_dw : ToDw) : Except String (List Submission) :=
  match to_dw.sra_dict with
  | some m =>
    m.mapM (fun p =>
      sbatch (download_cmd to_dw.prefetch_exe to_dw.fqdump_exe to_dw.max_dw_size p.2)
        p.2 (p.2 ++ ".log") 65536)
  | none => .error "Could not find SRR ids to submit."

/-! ### Rename mode -/

/-- The three lines printed when a source file is missing in rename mode. -/
def missingFileReport (file : String) : List String :=
  ["Could not find " ++ file ++ ".",
   "Did you run the script with -dw first?",
   "If so, make sure it's not still downloading."]

/-- Source `do_rename_sra` over a filesystem modelled as the list of
existing paths.  `os.rename` moves the source path to the target path and
raises `FileNotFoundError` when the source does not exist, upon which the
script prints the report and exits; the error value carries the report and
the filesystem state reached so far. -/
def do_rename_sra : List (String × String) → List String →
    Except (List String × List String) (List String)
  | [], fs => .ok fs
  | (name, run_id) :: rest, fs =>
    let file := "fastq/" ++ run_id ++ "_1.fastq.gz"
    let target_name := "fastq/" ++ name ++ ".fastq.gz"
    if fs.contains file then do_rename_sra rest (target_name :: fs.erase file)
    else .error (missingFileReport file, fs)

/-! ### parse_input_file -/

/-- Fatal outcomes of `parse_input_file`: the missing/empty `SRR_code`
section exit, the malformed-range exit (carrying the offending key and the
number of integers found, as in its message), and an uncaught Python
`ValueError` from `int(x)` on a non-integer component (carrying the raw
value string; the traceback reports neither key nor count). -/
inductive ParseError where
  | missingSection : ParseError
  | valueError : String → ParseError
  | malformedRange : String → Nat → ParseError
deriving DecidableEq, Repr

/-- The `b_ranges` flag: set exactly when `Config.ranges` is present and its
string value equals `"True"`. -/
def b_ranges (config : ConfigData) : Bool :=
  cpGet config "Config" "ranges" == some "True"

/-- Option lookup with a built-in default, as in the four
`has_option`/`get`-else-default blocks of `parse_input_file`. -/
def resolve (config : ConfigData) (key deflt : String) : String :=
  (cpGet config "Config" key).getD deflt

/-- Python `range(s, e)` (upper bound exclusive). -/
def pyRange (s e : Int) : List Int :=
  (List.range (e - s).toNat).map (fun (i : Nat) => s + (i : Int))

/-- The assignments performed for one `SRR_code` entry in the ranges branch:
`for i, vv in enumerate(range(rr.start, rr.end + 1)):
sra_dict[item + "_" + str(i)] = my_prefix + str(vv)`, as the ordered list of
(key, value) pairs. -/
def expandRange (prefv item : String) (s e : Int) : List (String × String) :=
  (pyRange s (e + 1)).enum.map (fun p => (item ++ "_" ++ toString p.1, prefv ++ toString p.2))

/-- The ranges branch of `parse_input_file`: for each entry in order, split
the value on commas and convert every component with `int` (a failure is an
uncaught `ValueError`); when the count differs from two, log and exit;
otherwise perform the range assignments into `sra_dict`. -/
def buildRangeDict (prefv : String) (acc : List (String × String)) :
    Sect → Except ParseError (List (String × String))
  | [] => .ok acc
  | (item, values) :: rest =>
    match (pySplit values).mapM pyInt with
    | none => .error (.valueError values)
    | some [s, e] => buildRangeDict prefv (insertAll acc (expandRange prefv item s e)) rest
    | some ranges => .error (.malformedRange item ranges.length)

/-- Source `parse_input_file` on the post-read `configparser` state.
The non-range branch stores `my_prefix + str(value)` per entry (`value` is
already a string, so `str(value)` is `value` itself).  Note the source reads
the `Config` key `prefetch_path` for **both** `my_prefetch` and `my_fqdump`;
the key `fqdump_path` is never consulted. -/
def parse_input_file (config : ConfigData) : Except ParseError ToDw :=
  let prefv := resolve config "prefix" PREF
  let my_prefetch := resolve config "prefetch_path" PREFETCH
  let my_fqdump := resolve config "prefetch_path" FQDUMP
  let my_max_dw_size := resolve config "max_dw_size" MAX_DW_SIZE
  if cpHasSection config "SRR_code" = false ∨ (cpItems config "SRR_code").length < 1 then
    .error .missingSection
  else
    (if b_ranges config then buildRangeDict prefv [] (cpItems config "SRR_code")
     else .ok (insertAll [] ((cpItems config "SRR_code").map (fun p => (p.1, prefv ++ p.2))))).map
      (fun sra => ⟨my_prefetch, my_fqdump, my_max_dw_size, some sra⟩)

/-! ### The configparser read step -/

/-- Raw text of one INI file: section headers in file order, each with its
raw `key = value` lines (keys/values as written, before `optionxform`). -/
abbrev RawFile := List (String × List (String × String))

/-- Fatal `configparser.read` outcomes in strict mode (the default):
a section header repeated within one file, or an option key repeated (after
`optionxform`) within one file's section. -/
inductive ReadError where
  | duplicateSection : String → ReadError
  | duplicateOption : String → String → ReadError
deriving DecidableEq, Repr

/-- Key transform `ConfigParser.optionxform`, which is `str.lower` by default (ASCII
lower-casing suffices for the identifiers involved here). -/
def optionxform (s : String) : String :=
  ⟨s.data.map Char.toLower⟩

/-- First string that occurs again later in the list, if any. -/
def firstDup : List String → Option String
  | [] => none
  | x :: xs => if xs.contains x then some x else firstDup xs

/-- Store a file's raw option lines into a section dict, lower-casing each
key; a repeated key overwrites (this is the across-files merge path). -/
def addOptions (d : Sect) (opts : List (String × String)) : Sect :=
  opts.foldl (fun acc p => dictInsert acc (optionxform p.1) p.2) d

/-- Merge one raw section into the accumulated parser state: extend the
section when it already exists (options from a later file override), append
it otherwise. -/
def mergeSection (c : ConfigData) (s : String) (opts : List (String × String)) : ConfigData :=
  if c.any (fun q => q.1 == s) then
    c.map (fun q => if q.1 == s then (q.1, addOptions q.2 opts) else q)
  else c ++ [(s, addOptions [] opts)]

/-- Read the sections of one file in order; `seen` tracks the section
headers already encountered in this file (strict-mode duplicate checks are
per file). -/
def readSections (c : ConfigData) (seen : List String) : RawFile → Except ReadError ConfigData
  | [] => .ok c
  | (s, opts) :: rest =>
    if seen.contains s then .error (.duplicateSection s)
    else
      match firstDup (opts.map (fun p => optionxform p.1)) with
      | some k => .error (.duplicateOption s k)
      | none => readSections (mergeSection c s opts) (s :: seen) rest

/-- Read step `ConfigParser.read(filenames)` over the already-tokenised files: files
are read in order into one shared state. -/
def configRead (files : List RawFile) : Except ReadError ConfigData :=
  files.foldlM (fun c f => readSections c [] f) []


/-- Match helper for stating claims: whether a parse outcome is the reported
malformed-range exit (as opposed to, e.g., an uncaught conversion error). -/
def isMalformedRangeError : Except ParseError ToDw → Bool
  | .error (.malformedRange _ _) => true
  | _ => false

/-- Big-endian decimal value of a digit character list, with accumulator
(used only to prove that `Nat.repr` is injective). -/
def digitsVal (l : List Char) (a : Nat) : Nat :=
  l.foldl (fun n c => n * 10 + (c.toNat - 48)) a

end DownloadSra


namespace DownloadSra

/-! ### Helper lemmas -/

theorem digitsVal_append (l m : List Char) (a : Nat) :
    digitsVal (l ++ m) a = digitsVal m (digitsVal l a) := by
  simp [digitsVal, List.foldl_append]

theorem toNat_digitChar (d : Nat) (hd : d < 10) : (Nat.digitChar d).toNat - 48 = d := by
  interval_cases d <;> rfl

theorem toDigitsCore_prepend (fuel n : Nat) (ds : List Char) (h : n < fuel) :
    Nat.toDigitsCore 10 fuel n ds = Nat.toDigitsCore 10 fuel n [] ++ ds := by
  induction fuel generalizing n ds with
  | zero => omega
  | succ fuel ih =>
    by_cases h0 : n / 10 = 0
    · simp [Nat.toDigitsCore, h0]
    · have hlt : n / 10 < fuel := by
        have h1 : 0 < n := by omega
        have := Nat.div_lt_self h1 (by norm_num : 1 < 10)
        omega
      simp only [Nat.toDigitsCore, h0, if_false]
      rw [ih _ _ hlt, ih _ (Nat.digitChar (n % 10) :: []) hlt]
      simp

theorem toDigitsCore_val (fuel n : Nat) (h : n < fuel) :
    digitsVal (Nat.toDigitsCore 10 fuel n []) 0 = n := by
  induction fuel generalizing n with
  | zero => omega
  | succ fuel ih =>
    by_cases h0 : n / 10 = 0
    · have hn : n < 10 := by omega
      have h2 : n % 10 = n := Nat.mod_eq_of_lt hn
      simp [Nat.toDigitsCore, h0, digitsVal, h2, toNat_digitChar n hn]
    · have hlt : n / 10 < fuel := by
        have h1 : 0 < n := by omega
        have := Nat.div_lt_self h1 (by norm_num : 1 < 10)
        omega
      simp only [Nat.toDigitsCore, h0, if_false]
      rw [toDigitsCore_prepend fuel (n / 10) _ hlt]
      rw [digitsVal_append, ih _ hlt]
      have hm : n % 10 < 10 := Nat.mod_lt _ (by norm_num)
      simp [digitsVal, toNat_digitChar _ hm]
      have := Nat.div_add_mod n 10
      omega

theorem natRepr_injective : Function.Injective Nat.repr := by
  intro m n h
  have hl : Nat.toDigitsCore 10 (m + 1) m [] = Nat.toDigitsCore 10 (n + 1) n [] :=
    congrArg String.data h
  have hm := toDigitsCore_val (m + 1) m (by omega)
  have hn := toDigitsCore_val (n + 1) n (by omega)
  rw [hl] at hm
  omega

theorem toStringNat_injective : Function.Injective (fun n : Nat => toString n) :=
  natRepr_injective

theorem string_append_left_cancel {a b c : String} (h : a ++ b = a ++ c) : b = c := by
  apply String.ext
  have hd := congrArg String.data h
  rw [String.data_append, String.data_append] at hd
  exact List.append_cancel_left hd

theorem lit2 (a b c : String) (h : a ++ b = c) (z : String) : a ++ (b ++ z) = c ++ z := by
  rw [← String.append_assoc, h]

end DownloadSra

namespace DownloadSra

theorem zip_self_eq_map {α : Type} (l : List α) : l.zip l = l.map (fun x => (x, x)) := by
  induction l with
  | nil => rfl
  | cons a t ih => simp [List.zip_cons_cons, ih]

theorem enum_range (k : Nat) : (List.range k).enum = (List.range k).map (fun i => (i, i)) := by
  rw [List.enum_eq_zip_range, List.length_range, zip_self_eq_map]

theorem expandRange_eq (prefv item : String) (s e : Int) :
    expandRange prefv item s e =
      (List.range (e + 1 - s).toNat).map
        (fun (i : Nat) => (item ++ "_" ++ toString i, prefv ++ toString (s + (i : Int)))) := by
  unfold expandRange pyRange
  rw [List.enum_map, enum_range]
  simp [List.map_map, Function.comp]

theorem expandRange_keys (prefv item : String) (s e : Int) :
    (expandRange prefv item s e).map Prod.fst =
      (List.range (e + 1 - s).toNat).map (fun i => item ++ "_" ++ toString i) := by
  rw [expandRange_eq]
  simp [List.map_map, Function.comp]

theorem expandRange_keys_nodup (prefv item : String) (s e : Int) :
    ((expandRange prefv item s e).map Prod.fst).Nodup := by
  rw [expandRange_keys]
  apply (List.nodup_range _).map
  intro i j h
  have h2 : toString i = toString j :=
    string_append_left_cancel (a := item ++ "_") h
  exact toStringNat_injective h2

theorem dictInsert_of_fresh (d : List (String × String)) (k v : String)
    (h : d.any (fun p => p.1 == k) = false) : dictInsert d k v = d ++ [(k, v)] := by
  simp [dictInsert, h]

theorem insertAll_eq_append :
    ∀ (ps d : List (String × String)), (ps.map Prod.fst).Nodup →
      (∀ p ∈ ps, d.any (fun q => q.1 == p.1) = false) → insertAll d ps = d ++ ps
  | [], d, _, _ => by simp [insertAll]
  | (k, v) :: t, d, hnd, hdisj => by
    have hfresh : d.any (fun q => q.1 == k) = false := hdisj (k, v) (by simp)
    have hstep : insertAll d ((k, v) :: t) = insertAll (d ++ [(k, v)]) t := by
      simp [insertAll, dictInsert_of_fresh d k v hfresh]
    rw [hstep]
    have hnd' : (t.map Prod.fst).Nodup := (List.nodup_cons.mp (by simpa using hnd)).2
    have hk : k ∉ t.map Prod.fst := (List.nodup_cons.mp (by simpa using hnd)).1
    have hdisj' : ∀ p ∈ t, (d ++ [(k, v)]).any (fun q => q.1 == p.1) = false := by
      intro p hp
      rw [List.any_append]
      have h1 : d.any (fun q => q.1 == p.1) = false := hdisj p (by simp [hp])
      have h2 : k ≠ p.1 := by
        intro hkp
        exact hk (hkp ▸ List.mem_map_of_mem Prod.fst hp)
      simp [h1, h2]
    rw [insertAll_eq_append t (d ++ [(k, v)]) hnd' hdisj']
    simp

theorem insertAll_nil_eq (ps : List (String × String)) (h : (ps.map Prod.fst).Nodup) :
    insertAll [] ps = ps := by
  rw [insertAll_eq_append ps [] h (by intro p _; rfl)]
  simp

end DownloadSra

namespace DownloadSra

theorem download_cmd_ne_empty (p f m rid : String) : (download_cmd p f m rid).length ≠ 0 := by
  simp [download_cmd, String.length_append, show (" " : String).length = 1 from rfl]

theorem download_cmd_decomp (p f m rid : String) :
    download_cmd p f m rid =
      (p ++ " -v " ++ rid ++ " -X " ++ m) ++ " && "
        ++ (f ++ " --outdir fastq --gzip --split-files ~/ncbi/public/sra/" ++ rid ++ ".sra")
        ++ " && " ++ ("rm -fr  ~/ncbi/public/sra/" ++ rid ++ ".sra ") := by
  simp only [download_cmd, String.append_assoc]
  rw [lit2 " " "-v" " -v" rfl, lit2 " -v" " " " -v " rfl, lit2 " " "-X " " -X " rfl]
  rw [lit2 " " "--outdir fastq --gzip --split-files"
    " --outdir fastq --gzip --split-files" rfl]
  rw [lit2 " --outdir fastq --gzip --split-files" " ~/ncbi/public/sra/"
    " --outdir fastq --gzip --split-files ~/ncbi/public/sra/" rfl]
  rw [← lit2 ".sra" " && " ".sra && " rfl]

end DownloadSra

namespace DownloadSra

theorem sbatch_ok (cmd J log : String) (mem : Nat) (h : cmd.length ≠ 0) :
    sbatch cmd J log mem = .ok ⟨cmd, J, log, mem⟩ := by
  simp [sbatch, h]

theorem do_download_single (p f m name rid : String) :
    do_download_sra ⟨p, f, m, some [(name, rid)]⟩ =
      .ok [⟨download_cmd p f m rid, rid, rid ++ ".log", 65536⟩] := by
  simp only [do_download_sra]
  rw [List.mapM_cons, List.mapM_nil]
  simp [sbatch_ok _ _ _ _ (download_cmd_ne_empty p f m rid)]

end DownloadSra

namespace DownloadSra

/-- Claim C1 (refuted; code bug): the claim says the resolved `fqdump_exe`
comes from the `Config` key `fqdump_path` when present.  In the source,
`parse_input_file` reads `prefetch_path` for both executables and never
consults `fqdump_path`: with `fqdump_path=/custom/fastq-dump` set (and the
key visibly present in the configuration), the returned `fqdump_exe` is the
built-in default, which differs from the configured value; and setting
`prefetch_path=/pp` changes `fqdump_exe` to `/pp`. -/
theorem C1_fqdump_exe_ignores_fqdump_path :
    parse_input_file [("Config", [("fqdump_path", "/custom/fastq-dump")]), ("SRR_code", [("a", "1")])]
      = .ok ⟨PREFETCH, FQDUMP, MAX_DW_SIZE, some [("a", "SRR1")]⟩
    ∧ cpGet [("Config", [("fqdump_path", "/custom/fastq-dump")]), ("SRR_code", [("a", "1")])]
        "Config" "fqdump_path" = some "/custom/fastq-dump"
    ∧ FQDUMP ≠ "/custom/fastq-dump"
    ∧ parse_input_file [("Config", [("prefetch_path", "/pp")]), ("SRR_code", [("a", "1")])]
      = .ok ⟨"/pp", "/pp", MAX_DW_SIZE, some [("a", "SRR1")]⟩ := by
  refine ⟨rfl, rfl, by decide, rfl⟩

/-- Claim C2 (amended): download mode takes the fatal error path only when
the settings dictionary lacks the `sra_dict` key; for a present but empty
mapping it issues zero batch submissions and raises no error. -/
theorem C2_error_only_when_mapping_key_absent (p f m : String) :
    do_download_sra ⟨p, f, m, some []⟩ = .ok []
    ∧ do_download_sra ⟨p, f, m, none⟩ = .error "Could not find SRR ids to submit." :=
  ⟨rfl, rfl⟩

/-- Claim C8: for every configuration whose `SRR_code` section is absent or
has zero entries, `parse_input_file` fails with the missing-section error,
producing no mapping. -/
theorem C8_missing_or_empty_section_fatal (c : ConfigData)
    (h : cpHasSection c "SRR_code" = false ∨ cpItems c "SRR_code" = []) :
    parse_input_file c = .error .missingSection := by
  have hcond : cpHasSection c "SRR_code" = false ∨ (cpItems c "SRR_code").length < 1 := by
    rcases h with h | h
    · exact Or.inl h
    · exact Or.inr (by simp [h])
  simp only [parse_input_file]
  rw [if_pos hcond]

/-- Witness for `C8_missing_or_empty_section_fatal`: a configuration with a
`Config` section but no `SRR_code` section. -/

theorem C8_missing_or_empty_section_fatal_witness : parse_input_file [("Config", [("ranges", "True")])] = .error .missingSection :=
  C8_missing_or_empty_section_fatal _ (Or.inl rfl)

/-- Claim C7: range expansion is enabled exactly when the `Config` key
`ranges` is present with string value exactly `True` (case-sensitive, no
normalization): for every other value the entries are treated verbatim, and
likewise when the key is absent. -/
theorem C7_ranges_enabled_iff_exact_True (v : String) :
    parse_input_file [("Config", [("ranges", v)]), ("SRR_code", [("a", "5,7")])] =
      (if v == "True"
       then .ok ⟨PREFETCH, FQDUMP, MAX_DW_SIZE,
         some [("a_0", "SRR5"), ("a_1", "SRR6"), ("a_2", "SRR7")]⟩
       else .ok ⟨PREFETCH, FQDUMP, MAX_DW_SIZE, some [("a", "SRR5,7")]⟩)
    ∧ parse_input_file [("SRR_code", [("a", "5,7")])] =
        .ok ⟨PREFETCH, FQDUMP, MAX_DW_SIZE, some [("a", "SRR5,7")]⟩ := by
  refine ⟨?_, rfl⟩
  cases hv : (v == "True") with
  | true =>
    have hveq : v = "True" := eq_of_beq hv
    subst hveq
    rfl
  | false =>
    have hb : b_ranges [("Config", [("ranges", v)]), ("SRR_code", [("a", "5,7")])]
        = (v == "True") := rfl
    have hns : ¬(cpHasSection [("Config", [("ranges", v)]), ("SRR_code", [("a", "5,7")])]
        "SRR_code" = false ∨
        (cpItems [("Config", [("ranges", v)]), ("SRR_code", [("a", "5,7")])]
          "SRR_code").length < 1) := by
      rintro (h | h)
      · exact Bool.noConfusion h
      · have h2 : (1 : Nat) < 1 := h
        exact absurd h2 (by decide)
    simp only [parse_input_file, hb, hv]
    rw [if_neg hns]
    rfl

end DownloadSra

namespace DownloadSra

theorem buildRangeDict_error (prefv k v : String) (l : List Int) (rest : Sect)
    (hv : (pySplit v).mapM pyInt = some l) (hl : l.length ≠ 2) :
    ∀ (pre : Sect) (acc : List (String × String)),
      (∀ p ∈ pre, ∃ a b : Int, (pySplit p.2).mapM pyInt = some [a, b]) →
      buildRangeDict prefv acc (pre ++ (k, v) :: rest) = .error (.malformedRange k l.length)
  | [], acc, _ => by
    have hv2 : List.mapM.loop pyInt (pySplit v) [] = some l := hv
    rcases l with _ | ⟨a, l⟩
    · simp [buildRangeDict, hv2]
    rcases l with _ | ⟨b, l⟩
    · simp [buildRangeDict, hv2]
    rcases l with _ | ⟨c, l⟩
    · simp at hl
    · simp [buildRangeDict, hv2]
  | (item, values) :: pre, acc, hpre => by
    obtain ⟨a, b, hab⟩ := hpre (item, values) (by simp)
    simp only [List.cons_append, buildRangeDict, hab]
    exact buildRangeDict_error prefv k v l rest hv hl pre _ (fun p hp => hpre p (by simp [hp]))

/-- Claim C4 (amended): with ranges enabled, when the first offending
`SRR_code` entry has a value whose comma-split components all convert to
integers but number other than two, the parse terminates immediately with
the malformed-range error reporting that key and the count found, without
processing any remaining keys or returning a mapping.  (When a component is
not an integer the failure is instead an uncaught conversion error; see the
counterexample.) -/
theorem C4_malformed_range_reported (c : ConfigData) (pre rest : Sect) (k v : String) (l : List Int)
    (hb : b_ranges c = true) (hs : cpHasSection c "SRR_code" = true)
    (hitems : cpItems c "SRR_code" = pre ++ (k, v) :: rest)
    (hpre : ∀ p ∈ pre, ∃ a b : Int, (pySplit p.2).mapM pyInt = some [a, b])
    (hv : (pySplit v).mapM pyInt = some l) (hl : l.length ≠ 2) :
    parse_input_file c = .error (.malformedRange k l.length) := by
  have hcond : ¬(cpHasSection c "SRR_code" = false ∨ (cpItems c "SRR_code").length < 1) := by
    rintro (h | h)
    · rw [hs] at h; exact Bool.noConfusion h
    · rw [hitems] at h; simp at h
  simp only [parse_input_file]
  rw [if_neg hcond, hb, hitems]
  rw [buildRangeDict_error (resolve c "prefix" PREF) k v l rest hv hl pre [] hpre]
  rfl

end DownloadSra

namespace DownloadSra

/-- Claim C4, counterexample: with ranges enabled, the value `5,x` does not
split on commas into exactly two integers, yet the parse does not fail with
the malformed-range report naming the key and the count — it terminates with
an uncaught conversion error carrying neither. -/
theorem C4_nonint_component_counterexample :
    parse_input_file [("Config", [("ranges", "True")]),
      ("SRR_code", [("a", "5,x"), ("b", "1,2")])] = .error (.valueError "5,x")
    ∧ isMalformedRangeError (parse_input_file [("Config", [("ranges", "True")]),
        ("SRR_code", [("a", "5,x"), ("b", "1,2")])]) = false :=
  ⟨rfl, rfl⟩

/-- Claim C5: with ranges enabled, an `SRR_code` entry `(name, "start,end")`
expands into the mapping entries `name_0 .. name_(end-start)` with values
`prefix+start .. prefix+end` in order; when `start <= end` there are exactly
`end - start + 1` of them, and when `end < start` zero entries are emitted
and no error is raised. -/
theorem C5_range_expansion (c : ConfigData) (name v : String) (s e : Int)
    (hb : b_ranges c = true) (hs : cpHasSection c "SRR_code" = true)
    (hitems : cpItems c "SRR_code" = [(name, v)])
    (hv : (pySplit v).mapM pyInt = some [s, e]) :
    ∃ mp : List (String × String),
      parse_input_file c = .ok ⟨resolve c "prefetch_path" PREFETCH,
        resolve c "prefetch_path" FQDUMP, resolve c "max_dw_size" MAX_DW_SIZE, some mp⟩
      ∧ mp = (List.range (e + 1 - s).toNat).map
          (fun (i : Nat) => (name ++ "_" ++ toString i,
            resolve c "prefix" PREF ++ toString (s + (i : Int))))
      ∧ (s ≤ e → mp.length = (e - s).toNat + 1)
      ∧ (e < s → mp = []) := by
  refine ⟨expandRange (resolve c "prefix" PREF) name s e, ?_, ?_, ?_, ?_⟩
  · have hcond : ¬(cpHasSection c "SRR_code" = false ∨ (cpItems c "SRR_code").length < 1) := by
      rintro (h | h)
      · rw [hs] at h; exact Bool.noConfusion h
      · rw [hitems] at h; simp at h
    simp only [parse_input_file]
    rw [if_neg hcond, hb, hitems]
    simp only [buildRangeDict, hv]
    rw [insertAll_nil_eq _ (expandRange_keys_nodup _ _ _ _)]
    rfl
  · exact expandRange_eq (resolve c "prefix" PREF) name s e
  · intro hse
    rw [expandRange_eq]
    simp [List.length_map, List.length_range]
    omega
  · intro hes
    rw [expandRange_eq]
    have h0 : (e + 1 - s).toNat = 0 := by omega
    simp [h0]

/-- Claim C6: rename mode processes mapping entries in insertion order,
renaming `fastq/<accession>_1.fastq.gz` to `fastq/<name>.fastq.gz`; at the
first entry whose source file does not exist it reports the missing path
together with the downloads-may-be-in-progress hint and terminates the whole
process, with exactly the earlier entries' renames applied and all later
entries untouched. -/
theorem C6_rename_stops_at_first_missing (l : List (String × String)) (fs fsk : List String) (k : Nat)
    (hk : k < l.length)
    (hpre : do_rename_sra (l.take k) fs = .ok fsk)
    (hmiss : fsk.contains ("fastq/" ++ (l.get ⟨k, hk⟩).2 ++ "_1.fastq.gz") = false) :
    do_rename_sra l fs =
      .error (missingFileReport ("fastq/" ++ (l.get ⟨k, hk⟩).2 ++ "_1.fastq.gz"), fsk) := by
  induction l generalizing fs fsk k with
  | nil => exact absurd hk (Nat.not_lt_zero k)
  | cons a t ih =>
    obtain ⟨name, rid⟩ := a
    cases k with
    | zero =>
      have hfs : fs = fsk := by
        simpa [do_rename_sra] using hpre
      subst hfs
      have hm : fs.contains ("fastq/" ++ rid ++ "_1.fastq.gz") = false := hmiss
      have hcfalse : ¬(fs.contains ("fastq/" ++ rid ++ "_1.fastq.gz") = true) := by
        rw [hm]
        simp
      simp only [do_rename_sra]
      rw [if_neg hcfalse]
      rfl
    | succ j =>
      rw [List.take_succ_cons] at hpre
      simp only [do_rename_sra] at hpre ⊢
      by_cases hc : fs.contains ("fastq/" ++ rid ++ "_1.fastq.gz") = true
      · rw [if_pos hc] at hpre ⊢
        have hk2 : j < t.length := by simpa using hk
        exact ih _ _ j hk2 hpre hmiss
      · rw [if_neg hc] at hpre
        exact absurd hpre (by simp)

/-- Claim C9: for every valid configuration with ranges disabled, the
mapping has exactly one entry per `SRR_code` key, in order, whose value is
the resolved prefix concatenated with the literal configured value (no
numeric validation). -/
theorem C9_nonrange_mapping_verbatim (c : ConfigData) (hb : b_ranges c = false)
    (hs : cpHasSection c "SRR_code" = true)
    (hne : cpItems c "SRR_code" ≠ [])
    (hnd : ((cpItems c "SRR_code").map (fun p => p.1)).Nodup) :
    parse_input_file c = .ok ⟨resolve c "prefetch_path" PREFETCH,
      resolve c "prefetch_path" FQDUMP, resolve c "max_dw_size" MAX_DW_SIZE,
      some ((cpItems c "SRR_code").map (fun p => (p.1, resolve c "prefix" PREF ++ p.2)))⟩ := by
  have hcond : ¬(cpHasSection c "SRR_code" = false ∨ (cpItems c "SRR_code").length < 1) := by
    rintro (h | h)
    · rw [hs] at h; exact Bool.noConfusion h
    · exact hne (List.length_eq_zero.mp (by omega))
  simp only [parse_input_file]
  rw [if_neg hcond, hb]
  have hkeys : (((cpItems c "SRR_code").map
      (fun p => (p.1, resolve c "prefix" PREF ++ p.2))).map Prod.fst).Nodup := by
    simpa [List.map_map, Function.comp] using hnd
  rw [if_neg (by simp), insertAll_nil_eq _ hkeys]
  rfl

end DownloadSra

namespace DownloadSra

/-- Claim C10 (amended): the configparser read step lower-cases every option
key, so a run name enters the mapping lower-cased and rename mode writes the
lower-cased target file name; when the same lower-cased key is set again by a
later input file the later value wins, whereas two same-file keys that are
equal up to case are a fatal duplicate-option read error (see the
counterexample). -/
theorem C10_keys_lowercased_by_read (k v1 v2 acc : String) :
    configRead [[("SRR_code", [(k, v1)])]] = .ok [("SRR_code", [(optionxform k, v1)])]
    ∧ configRead [[("SRR_code", [(k, v1)])], [("SRR_code", [(k, v2)])]] =
        .ok [("SRR_code", [(optionxform k, v2)])]
    ∧ parse_input_file [("SRR_code", [(optionxform k, v1)])] =
        .ok ⟨PREFETCH, FQDUMP, MAX_DW_SIZE, some [(optionxform k, "SRR" ++ v1)]⟩
    ∧ do_rename_sra [(optionxform k, acc)] ["fastq/" ++ acc ++ "_1.fastq.gz"] =
        .ok ["fastq/" ++ optionxform k ++ ".fastq.gz"] := by
  refine ⟨rfl, ?_, rfl, ?_⟩
  · have h1 : configRead [[("SRR_code", [(k, v1)])], [("SRR_code", [(k, v2)])]] =
        .ok [("SRR_code", dictInsert [(optionxform k, v1)] (optionxform k) v2)] := rfl
    have h2 : dictInsert [(optionxform k, v1)] (optionxform k) v2 = [(optionxform k, v2)] := by
      simp [dictInsert]
    rw [h1, h2]
  · simp [do_rename_sra, List.contains_cons]

/-- Claim C10, counterexample: two `SRR_code` keys differing only in letter
case in the same input file do not collapse into one mapping entry with the
later value winning — strict-mode configparser raises a duplicate-option
error instead. -/

theorem C10_same_file_case_duplicate_counterexample : configRead [[("SRR_code", [("Sample", "1"), ("sample", "2")])]] =
    .error (.duplicateOption "SRR_code" "sample") := rfl

/-- Claim C2, counterexample: on settings whose mapping is present but has
zero entries, download mode returns successfully with zero submissions, so
the claimed error path is not taken. -/
theorem C2_empty_mapping_counterexample : do_download_sra ⟨PREFETCH, FQDUMP, MAX_DW_SIZE, some []⟩ = .ok [] := rfl

/-- Claim C3 (amended): for every mapping with exactly one entry, download
mode issues exactly one batch submission, with job name equal to the entry's
accession, log-file name equal to the accession followed by `.log`, and a
command containing, in this order, the fetch invocation, the
format-conversion invocation, and the deletion of the cached raw file,
joined by the success-only connective. -/
theorem C3_single_entry_one_submission (p f m name rid : String) :
    do_download_sra ⟨p, f, m, some [(name, rid)]⟩ =
      .ok [⟨download_cmd p f m rid, rid, rid ++ ".log", 65536⟩]
    ∧ download_cmd p f m rid =
        (p ++ " -v " ++ rid ++ " -X " ++ m) ++ " && "
          ++ (f ++ " --outdir fastq --gzip --split-files ~/ncbi/public/sra/" ++ rid ++ ".sra")
          ++ " && " ++ ("rm -fr  ~/ncbi/public/sra/" ++ rid ++ ".sra ") :=
  ⟨do_download_single p f m name rid, download_cmd_decomp p f m rid⟩

set_option maxRecDepth 4000 in
/-- Claim C3, counterexample: for a concrete one-entry mapping the single
submission's log-file name is the accession followed by `.log`, which is not
equal to the accession itself as the claim states. -/
theorem C3_log_name_counterexample :
    do_download_sra ⟨"P", "F", "60Gb", some [("s", "SRR100")]⟩ =
      .ok [⟨"P -v SRR100 -X 60Gb && F --outdir fastq --gzip --split-files ~/ncbi/public/sra/SRR100.sra && rm -fr  ~/ncbi/public/sra/SRR100.sra ",
        "SRR100", "SRR100.log", 65536⟩]
    ∧ ("SRR100.log" : String) ≠ "SRR100" :=
  ⟨rfl, by decide⟩

/-- Witness for `C4_malformed_range_reported`: a concrete configuration
whose second entry carries three integers. -/
theorem C4_malformed_range_reported_witness :
    parse_input_file [("Config", [("ranges", "True")]),
      ("SRR_code", [("good", "1,2"), ("bad", "1,2,3"), ("later", "9")])] =
      .error (.malformedRange "bad" 3) := by
  have h := C4_malformed_range_reported [("Config", [("ranges", "True")]),
      ("SRR_code", [("good", "1,2"), ("bad", "1,2,3"), ("later", "9")])]
    [("good", "1,2")] [("later", "9")] "bad" "1,2,3" [1, 2, 3] rfl rfl rfl
    (by intro p hp; simp at hp; subst hp; exact ⟨1, 2, rfl⟩) rfl (by decide)
  exact h

/-- Witness for `C5_range_expansion`: the spec's example `sample=5,7` with
the default prefix. -/
theorem C5_range_expansion_witness :
    ∃ mp : List (String × String),
      parse_input_file [("Config", [("ranges", "True")]), ("SRR_code", [("sample", "5,7")])] =
        .ok ⟨PREFETCH, FQDUMP, MAX_DW_SIZE, some mp⟩
      ∧ mp = (List.range ((7 : Int) + 1 - 5).toNat).map
          (fun (i : Nat) => ("sample" ++ "_" ++ toString i, "SRR" ++ toString ((5 : Int) + (i : Int))))
      ∧ ((5 : Int) ≤ 7 → mp.length = ((7 : Int) - 5).toNat + 1)
      ∧ ((7 : Int) < 5 → mp = []) :=
  C5_range_expansion [("Config", [("ranges", "True")]), ("SRR_code", [("sample", "5,7")])]
    "sample" "5,7" 5 7 rfl rfl rfl rfl

/-- Witness for `C6_rename_stops_at_first_missing`: the spec's example where
`ctrl_0` is renamed and the run of `ctrl_1` has not finished downloading. -/
theorem C6_rename_stops_at_first_missing_witness :
    do_rename_sra [("ctrl_0", "SRR100"), ("ctrl_1", "SRR101")] ["fastq/SRR100_1.fastq.gz"] =
      .error (missingFileReport "fastq/SRR101_1.fastq.gz", ["fastq/ctrl_0.fastq.gz"]) :=
  C6_rename_stops_at_first_missing [("ctrl_0", "SRR100"), ("ctrl_1", "SRR101")] ["fastq/SRR100_1.fastq.gz"]
    ["fastq/ctrl_0.fastq.gz"] 1 (by decide) rfl rfl

/-- Witness for `C9_nonrange_mapping_verbatim`: a two-entry section with the
default prefix. -/
theorem C9_nonrange_mapping_verbatim_witness :
    parse_input_file [("SRR_code", [("a", "100"), ("b", "7")])] =
      .ok ⟨PREFETCH, FQDUMP, MAX_DW_SIZE, some [("a", "SRR100"), ("b", "SRR7")]⟩ :=
  C9_nonrange_mapping_verbatim [("SRR_code", [("a", "100"), ("b", "7")])] rfl rfl (by decide) (by decide)

end DownloadSra
